import Mathlib

/-!
Verification of the Timeless meeting-orchestrator repository
(Koodattu/varjotimeless-sjk).

The repository ships the manager-service API documentation, the
requirements-service API documentation, and the Next.js dashboard sources.
The manager service's own implementation file is not part of the sources
available here, so the orchestrator's operations are modelled faithfully
from the specification's words (each such definition is marked
`Modelled from the spec:`).  The dashboard components
(`projectDataProvider.tsx`, `iframeSection.tsx`, `listeners/sse.ts`,
`state.tsx`, `requirements.tsx`) are embedded directly from their sources.
-/

/-! ## Discussion phases (manager service API docs, src/unnamed/part_001) -/

/-- The six discussion phases, in their documented order. -/
inductive Phase
  | conceptualization
  | requirementAnalysis
  | design
  | implementation
  | testing
  | deploymentMaintenance
deriving DecidableEq, Repr

/-- All six phases in the documented order. -/
def allPhases : List Phase :=
  [Phase.conceptualization, Phase.requirementAnalysis, Phase.design,
   Phase.implementation, Phase.testing, Phase.deploymentMaintenance]

/-- The state name the manager service documents/broadcasts for each phase
(src/unnamed/part_001, "Discussion States", lines 73-80). -/
def phaseName : Phase → String
  | Phase.conceptualization => "Conceptualization"
  | Phase.requirementAnalysis => "Requirement Analysis"
  | Phase.design => "Design (Tech & UI/UX)"
  | Phase.implementation => "Implementation"
  | Phase.testing => "Testing"
  | Phase.deploymentMaintenance => "Deployment and Maintenance"

/-- The six state names of the manager service, in order, as documented in
src/unnamed/part_001. -/
def managerStates : List String := allPhases.map phaseName

/-- The six state names the dashboard's StateComponent recognizes
(src/unnamed/part_003, `STATES`, lines 29-36), copied verbatim. -/
def STATES : List String :=
  ["Conceptualization",
   "Requirement Analysis",
   "Design (tech & UIUX)",
   "Implementation",
   "Testing",
   "Deployment, and Maintenance"]

/-! ## Meeting data model (spec section 3) -/

/-- A single transcription entry: sequence number, raw text, arrival
timestamp.  Immutable once appended. -/
structure TranscriptionEntry where
  seq : Nat
  text : String
  timestamp : Nat
deriving DecidableEq, Repr

/-- The per-meeting mutable record owned by the Meeting Store. -/
structure Meeting where
  transcript : List TranscriptionEntry
  notebook_summary : String
  pending_since_summary : Nat
  current_phase : Phase
  requirements_text : String
  code_generation_running : Bool
  deployment_url : Option String
deriving DecidableEq, Repr

/-- Modelled from the spec: the state of a freshly created meeting
(spec section 3: empty transcript/summary, counter 0, first phase,
no requirements yet, no generation running, no deployment url). -/
def initialMeeting : Meeting :=
  { transcript := []
    notebook_summary := ""
    pending_since_summary := 0
    current_phase := Phase.conceptualization
    requirements_text := ""
    code_generation_running := false
    deployment_url := none }

/-- The next sequence number of a meeting's transcript. -/
def nextSeq (m : Meeting) : Nat := m.transcript.length

/-- Modelled from the spec: append a new `TranscriptionEntry` with the next
sequence number and increment `pending_since_summary` (spec section 4.1,
the synchronous part of `ingest`). -/
def appendTranscription (m : Meeting) (text : String) (now : Nat) : Meeting :=
  { m with
    transcript := m.transcript ++ [{ seq := nextSeq m, text := text, timestamp := now }]
    pending_since_summary := m.pending_since_summary + 1 }

/-! ## Meeting store and the Transcription Ingestor (spec sections 3, 4.1) -/

/-- The meeting store: meeting records keyed by opaque id. -/
abbrev Store := List (String × Meeting)

/-- Look a meeting up by id. -/
def lookupMeeting : Store → String → Option Meeting
  | [], _ => none
  | (k, m) :: rest, id => if k = id then some m else lookupMeeting rest id

/-- Replace the record stored under an id (no-op for an unknown id). -/
def updateMeeting : Store → String → Meeting → Store
  | [], _, _ => []
  | (k, m) :: rest, id, m2 =>
      if k = id then (k, m2) :: rest else (k, m) :: updateMeeting rest id m2

/-- The two user-visible failures of the ingestion call (spec section 7). -/
inductive IngestError
  | invalidInput
  | notFound
deriving DecidableEq, Repr

/-- The HTTP status code of each user-visible ingestion failure
(400 for `InvalidInput`, 404 for `NotFound`). -/
def statusCode : IngestError → Nat
  | IngestError.invalidInput => 400
  | IngestError.notFound => 404

/-- The synchronous acknowledgment of a processed transcription
(src/unnamed/part_001, response example lines 36-42). -/
structure Ack where
  status : String
  message : String
deriving DecidableEq, Repr

/-- Modelled from the spec: `ingest(meetingId, text) -> Ack`
(spec section 4.1), synchronous part only.  Empty or absent text fails with
`InvalidInput` and changes no state; an unknown meeting id fails with
`NotFound` and changes no state; otherwise one entry is appended with the
next sequence number, `pending_since_summary` is incremented, and an
acknowledgment is returned. -/
def ingest (st : Store) (id : String) (text : Option String) (now : Nat) :
    Store × Except IngestError Ack :=
  match text with
  | none => (st, Except.error IngestError.invalidInput)
  | some t =>
      if t = "" then (st, Except.error IngestError.invalidInput)
      else
        match lookupMeeting st id with
        | none => (st, Except.error IngestError.notFound)
        | some m =>
            (updateMeeting st id (appendTranscription m t now),
             Except.ok { status := "OK", message := "Transcription processed." })

/-! ## The follow-up cascade (spec sections 4.2-4.5)

Each collaborator call is represented by its outcome for this invocation:
`none` is a failure (unreachable or erroring), `some v` a success
returning `v`. -/

/-- The outcomes of the collaborator calls made by one cascade run. -/
structure Oracles where
  summarize : Option String
  classify : Option Phase
  fetchRequirements : Option String
deriving Repr

/-- Modelled from the spec: the Notebook Summarizer (spec section 4.2).
When `pending_since_summary >= interval`, a successful text-generation call
replaces `notebook_summary` and resets the counter to 0; a failure leaves
both unchanged. -/
def maybeSummarize (o : Option String) (interval : Nat) (m : Meeting) : Meeting :=
  if interval ≤ m.pending_since_summary then
    match o with
    | some s => { m with notebook_summary := s, pending_since_summary := 0 }
    | none => m
  else m

/-- Modelled from the spec: the Discussion Phase Machine (spec section 4.3).
The machine adopts whatever phase the classifier returns; classifier
failure leaves `current_phase` unchanged. -/
def evalPhase (o : Option Phase) (m : Meeting) : Meeting :=
  match o with
  | some p => { m with current_phase := p }
  | none => m

/-- Modelled from the spec: the Requirements Bridge refresh
(spec section 4.4).  A successful fetch updates `requirements_text`; on
failure the cached value is kept. -/
def refreshRequirements (o : Option String) (m : Meeting) : Meeting :=
  match o with
  | some r => { m with requirements_text := r }
  | none => m

/-- Modelled from the spec: whether a phase requires generated output
(spec section 4.5 gives "e.g., reaching Implementation"). -/
def requiresGeneratedOutput (p : Phase) : Bool := p == Phase.implementation

/-- Modelled from the spec: the Code-Generation Trigger (spec section 4.5).
Fires only when the phase machine has just advanced into a phase requiring
generated output, `requirements_text` is non-empty and no generation is
running; a trigger attempt while `code_generation_running` is true is a
no-op that changes no field. -/
def tryTriggerCodeGen (m : Meeting) (justAdvanced : Bool) : Meeting :=
  if justAdvanced && requiresGeneratedOutput m.current_phase
      && m.requirements_text != "" && !m.code_generation_running then
    { m with code_generation_running := true }
  else m

/-- Modelled from the spec: completion of a code-generation invocation
(spec section 4.5).  Success sets `deployment_url` to the returned location
and clears the running flag; failure only clears the running flag and
leaves `deployment_url` at its previous value. -/
def completeCodeGen (m : Meeting) (result : Option String) : Meeting :=
  match result with
  | some url => { m with deployment_url := some url, code_generation_running := false }
  | none => { m with code_generation_running := false }

/-- Modelled from the spec: the follow-up cascade dispatched after a
successful ingestion (spec section 2 data flow): summarization check, phase
evaluation, requirements refresh, then the code-generation trigger, whose
readiness asks whether the phase just advanced. -/
def cascade (o : Oracles) (interval : Nat) (m : Meeting) : Meeting :=
  let m1 := maybeSummarize o.summarize interval m
  let m2 := evalPhase o.classify m1
  let m3 := refreshRequirements o.fetchRequirements m2
  tryTriggerCodeGen m3 (m2.current_phase != m1.current_phase)

/-- Modelled from the spec: the full ingestion handler — the synchronous
`ingest` followed by the cascade on the stored meeting.  Collaborator
outcomes never change the returned status (spec section 7). -/
def handleIngest (o : Oracles) (interval : Nat) (st : Store) (id : String)
    (text : Option String) (now : Nat) : Store × Except IngestError Ack :=
  match text with
  | none => (st, Except.error IngestError.invalidInput)
  | some t =>
      if t = "" then (st, Except.error IngestError.invalidInput)
      else
        match lookupMeeting st id with
        | none => (st, Except.error IngestError.notFound)
        | some m =>
            (updateMeeting st id (cascade o interval (appendTranscription m t now)),
             Except.ok { status := "OK", message := "Transcription processed." })

/-- Iterated successful ingestions on one meeting: step `k` appends
`texts k` at time `times k` and then runs the cascade with outcomes
`os k`. -/
def iterIngest (os : Nat → Oracles) (interval : Nat) (texts : Nat → String)
    (times : Nat → Nat) (m : Meeting) : Nat → Meeting
  | 0 => m
  | k + 1 =>
      cascade (os k) interval
        (appendTranscription (iterIngest os interval texts times m k) (texts k) (times k))

/-! ## Whole-system traces (for the invariants of spec section 3) -/

/-- An externally visible event of one meeting's lifetime: a successful
ingestion (with that cascade's collaborator outcomes) or the completion of
a code-generation invocation (`some url` success, `none` failure). -/
inductive MEvent
  | ingestText (text : String) (now : Nat) (o : Oracles)
  | genComplete (result : Option String)

/-- A meeting together with the number of code-generation invocations
currently in flight (an observer's count, not a stored field). -/
structure SysState where
  meeting : Meeting
  inflight : Nat

/-- The initial system state of a meeting. -/
def initState : SysState := { meeting := initialMeeting, inflight := 0 }

/-- Modelled from the spec: one event step.  An ingestion appends and runs
the cascade; a launch of code generation (running flag going up) puts one
invocation in flight.  A completion event ends the in-flight invocation; a
completion with no invocation in flight changes nothing. -/
def stepEv (interval : Nat) (s : SysState) : MEvent → SysState
  | MEvent.ingestText t now o =>
      let m2 := cascade o interval (appendTranscription s.meeting t now)
      { meeting := m2
        inflight :=
          if m2.code_generation_running && !s.meeting.code_generation_running
          then s.inflight + 1 else s.inflight }
  | MEvent.genComplete r =>
      if s.meeting.code_generation_running then
        { meeting := completeCodeGen s.meeting r, inflight := s.inflight - 1 }
      else s

/-- Run a trace of events from a given state. -/
def runFrom (interval : Nat) (s : SysState) : List MEvent → SysState
  | [] => s
  | e :: tr => runFrom interval (stepEv interval s e) tr

/-- Run a trace of events from the initial state. -/
def runTrace (interval : Nat) (tr : List MEvent) : SysState :=
  runFrom interval initState tr

/-- Whether a trace contains a successful code-generation completion. -/
def hasSuccessfulGen (tr : List MEvent) : Bool :=
  tr.any fun e =>
    match e with
    | MEvent.genComplete (some _) => true
    | _ => false

/-! ## State Broadcaster (spec section 4.6) -/

/-- The broadcast-relevant fields pushed on the SSE stream
(src/unnamed/part_001, SSE response format lines 54-65). -/
structure Snapshot where
  transcriptions : List String
  notebook_summary : String
  current_state : String
  code_generation_running : Bool
  requirements : String
  deployment_url : Option String
deriving DecidableEq, Repr

/-- The full, consistent snapshot of a meeting: a copy of every
broadcast-relevant field. -/
def snapshotOf (m : Meeting) : Snapshot :=
  { transcriptions := m.transcript.map fun e => e.text
    notebook_summary := m.notebook_summary
    current_state := phaseName m.current_phase
    code_generation_running := m.code_generation_running
    requirements := m.requirements_text
    deployment_url := m.deployment_url }

/-- A broadcaster event: a new subscriber connects, the fixed tick fires,
or a state-changing operation finishes (edge-triggered push). -/
inductive BEvent
  | connect (sub : Nat)
  | tick
  | stateChange
deriving DecidableEq, Repr

/-- Modelled from the spec: one broadcaster step (spec section 4.6).
A new subscriber is registered and receives a full snapshot immediately;
a tick or an edge-triggered push emits a snapshot to every registered
subscriber.  Returns the new registry and the emissions of this step. -/
def broadcastStep (subs : List Nat) (m : Meeting) :
    BEvent → List Nat × List (Nat × Snapshot)
  | BEvent.connect s => (s :: subs, [(s, snapshotOf m)])
  | BEvent.tick => (subs, subs.map fun s => (s, snapshotOf m))
  | BEvent.stateChange => (subs, subs.map fun s => (s, snapshotOf m))

/-- Modelled from the spec: run the broadcaster over a sequence of events;
`mt k` is the meeting state read (under exclusive access) at the `k`-th
event.  Produces the chronological list of emissions. -/
def broadcastRun (subs : List Nat) (mt : Nat → Meeting) (t : Nat) :
    List BEvent → List (Nat × Snapshot)
  | [] => []
  | e :: evs =>
      let p := broadcastStep subs (mt t) e
      p.2 ++ broadcastRun p.1 mt (t + 1) evs

/-- The snapshots delivered to one subscriber, in order. -/
def deliveriesTo (s : Nat) (out : List (Nat × Snapshot)) : List Snapshot :=
  (out.filter fun p => p.1 == s).map fun p => p.2

/-! ## Dashboard: SSE listener (src/timeless_ui/.../listeners/sse.ts) -/

/-- The state of the dashboard's EventSource subscription: whether
`eventSource.close()` has been called, and the last data handed to
`setData`. -/
structure SSEConn where
  isClosed : Bool
  lastData : Option String
deriving DecidableEq, Repr

/-- An event delivered on the SSE connection. -/
inductive SSEEv
  | message (data : String)
  | errorEv
deriving DecidableEq, Repr

/-- The handlers installed by `subscribeToSSE` (sse.ts lines 6-14):
`onmessage` parses the event data and calls `setData`; `onerror` calls
`eventSource.close()` and installs no reconnection.  A closed EventSource
dispatches no further events, so a message arriving after close is
dropped. -/
def sseStep (c : SSEConn) : SSEEv → SSEConn
  | SSEEv.message d => if c.isClosed then c else { c with lastData := some d }
  | SSEEv.errorEv => { c with isClosed := true }

/-- Process a list of SSE events through the installed handlers. -/
def sseRun (c : SSEConn) : List SSEEv → SSEConn
  | [] => c
  | e :: evs => sseRun (sseStep c e) evs

/-! ## Dashboard: rendering (projectDataProvider.tsx, iframeSection.tsx,
requirements.tsx) -/

/-- A `requirements` value as received over SSE by the dashboard:
null/undefined, a string, or an array of strings. -/
inductive ReqValue
  | nullReq
  | strReq (s : String)
  | arrReq (xs : List String)
deriving DecidableEq, Repr

/-- JS `string.split("\n")` on the underlying character list: the segments
between newline characters (an empty string splits to `[""]`, a trailing
newline yields a trailing empty segment, exactly as in JS). -/
def jsSplitNewline : List Char → List (List Char)
  | [] => [[]]
  | c :: cs =>
      let r := jsSplitNewline cs
      if c == Char.ofNat 10 then [] :: r
      else
        match r with
        | [] => [[c]]
        | l :: ls => (c :: l) :: ls

/-- JS `string.trim()`: strip leading and trailing whitespace characters. -/
def jsTrim (l : List Char) : List Char :=
  ((l.dropWhile Char.isWhitespace).reverse.dropWhile Char.isWhitespace).reverse

/-- JS `string.includes("\n")`: whether the string has a newline. -/
def jsHasNewline (s : String) : Bool := s.data.contains (Char.ofNat 10)

/-- Embedding of `RequirementsComponent` (projectDataProvider.tsx lines
56-65): `if (!requirements) return null` (so null, undefined and the empty
string render nothing); a string containing a newline is split on newlines
and lines with `line.trim() !== ""` are kept; any other string becomes a
one-element array; an array is used unchanged.  Returns the rendered list,
`none` when nothing is rendered. -/
def renderRequirements : ReqValue → Option (List String)
  | ReqValue.nullReq => none
  | ReqValue.strReq s =>
      if s == "" then none
      else if jsHasNewline s then
        some (((jsSplitNewline s.data).filter fun l => jsTrim l != []).map String.mk)
      else some [s]
  | ReqValue.arrReq xs => some xs

/-- The list of a string's lines with every blank (whitespace-only) line
removed — the normalization the claim describes for strings containing a
newline. -/
def nonBlankLines (s : String) : List String :=
  ((jsSplitNewline s.data).filter fun l => jsTrim l != []).map String.mk

/-- The `ProjectData` record the dashboard keeps in state
(projectDataProvider.tsx lines 12-18); `deployment_url` is `none` when the
field is absent/null in the received JSON. -/
structure ProjectData where
  notebook_summary : String
  requirements : ReqValue
  current_state : String
  deployment_url : Option String
  code_generation_running : Bool

/-- What the main section of the dashboard shows. -/
inductive MainView
  | loadingView
  | spinnerView
  | iframeView (url : String)
  | noIframe
deriving DecidableEq, Repr

/-- Embedding of `IframeSectionComponent` (iframeSection.tsx lines 7-9):
`if (!url) return null`, so an absent or empty url renders no iframe;
otherwise the iframe is rendered with that url. -/
def renderIframeSection (url : Option String) : MainView :=
  match url with
  | none => MainView.noIframe
  | some u => if u == "" then MainView.noIframe else MainView.iframeView u

/-- Embedding of the main section of `ProjectDataWrapper`
(projectDataProvider.tsx lines 30, 39-46): no data yet renders the loading
text; `code_generation_running` renders the spinner; otherwise the iframe
section is rendered with `deployment_url`. -/
def renderWrapper (data : Option ProjectData) : MainView :=
  match data with
  | none => MainView.loadingView
  | some d =>
      if d.code_generation_running then MainView.spinnerView
      else renderIframeSection d.deployment_url

/-! ## Frame lemmas for the cascade components -/

@[simp] theorem appendTranscription_pending (m : Meeting) (t : String) (now : Nat) :
    (appendTranscription m t now).pending_since_summary = m.pending_since_summary + 1 := rfl

@[simp] theorem appendTranscription_summary (m : Meeting) (t : String) (now : Nat) :
    (appendTranscription m t now).notebook_summary = m.notebook_summary := rfl

@[simp] theorem appendTranscription_phase (m : Meeting) (t : String) (now : Nat) :
    (appendTranscription m t now).current_phase = m.current_phase := rfl

@[simp] theorem appendTranscription_requirements (m : Meeting) (t : String) (now : Nat) :
    (appendTranscription m t now).requirements_text = m.requirements_text := rfl

@[simp] theorem appendTranscription_running (m : Meeting) (t : String) (now : Nat) :
    (appendTranscription m t now).code_generation_running = m.code_generation_running := rfl

@[simp] theorem appendTranscription_url (m : Meeting) (t : String) (now : Nat) :
    (appendTranscription m t now).deployment_url = m.deployment_url := rfl

@[simp] theorem appendTranscription_length (m : Meeting) (t : String) (now : Nat) :
    (appendTranscription m t now).transcript.length = m.transcript.length + 1 := by
  simp [appendTranscription]

theorem maybeSummarize_transcript (o : Option String) (iv : Nat) (m : Meeting) :
    (maybeSummarize o iv m).transcript = m.transcript := by
  unfold maybeSummarize; split
  · cases o <;> rfl
  · rfl

@[simp] theorem maybeSummarize_phase (o : Option String) (iv : Nat) (m : Meeting) :
    (maybeSummarize o iv m).current_phase = m.current_phase := by
  unfold maybeSummarize; split
  · cases o <;> rfl
  · rfl

@[simp] theorem maybeSummarize_requirements (o : Option String) (iv : Nat) (m : Meeting) :
    (maybeSummarize o iv m).requirements_text = m.requirements_text := by
  unfold maybeSummarize; split
  · cases o <;> rfl
  · rfl

@[simp] theorem maybeSummarize_running (o : Option String) (iv : Nat) (m : Meeting) :
    (maybeSummarize o iv m).code_generation_running = m.code_generation_running := by
  unfold maybeSummarize; split
  · cases o <;> rfl
  · rfl

@[simp] theorem maybeSummarize_url (o : Option String) (iv : Nat) (m : Meeting) :
    (maybeSummarize o iv m).deployment_url = m.deployment_url := by
  unfold maybeSummarize; split
  · cases o <;> rfl
  · rfl

theorem maybeSummarize_not_triggered (o : Option String) (iv : Nat) (m : Meeting)
    (h : m.pending_since_summary < iv) : maybeSummarize o iv m = m := by
  unfold maybeSummarize; rw [if_neg (by omega)]

theorem maybeSummarize_success (s : String) (iv : Nat) (m : Meeting)
    (h : iv ≤ m.pending_since_summary) :
    maybeSummarize (some s) iv m = { m with notebook_summary := s, pending_since_summary := 0 } := by
  unfold maybeSummarize; rw [if_pos h]

theorem maybeSummarize_failure (iv : Nat) (m : Meeting) :
    maybeSummarize none iv m = m := by
  unfold maybeSummarize; split <;> rfl

@[simp] theorem evalPhase_pending (o : Option Phase) (m : Meeting) :
    (evalPhase o m).pending_since_summary = m.pending_since_summary := by
  cases o <;> rfl

@[simp] theorem evalPhase_summary (o : Option Phase) (m : Meeting) :
    (evalPhase o m).notebook_summary = m.notebook_summary := by
  cases o <;> rfl

@[simp] theorem evalPhase_requirements (o : Option Phase) (m : Meeting) :
    (evalPhase o m).requirements_text = m.requirements_text := by
  cases o <;> rfl

@[simp] theorem evalPhase_running (o : Option Phase) (m : Meeting) :
    (evalPhase o m).code_generation_running = m.code_generation_running := by
  cases o <;> rfl

@[simp] theorem evalPhase_url (o : Option Phase) (m : Meeting) :
    (evalPhase o m).deployment_url = m.deployment_url := by
  cases o <;> rfl

theorem evalPhase_transcript (o : Option Phase) (m : Meeting) :
    (evalPhase o m).transcript = m.transcript := by
  cases o <;> rfl

@[simp] theorem refreshRequirements_pending (o : Option String) (m : Meeting) :
    (refreshRequirements o m).pending_since_summary = m.pending_since_summary := by
  cases o <;> rfl

@[simp] theorem refreshRequirements_summary (o : Option String) (m : Meeting) :
    (refreshRequirements o m).notebook_summary = m.notebook_summary := by
  cases o <;> rfl

@[simp] theorem refreshRequirements_phase (o : Option String) (m : Meeting) :
    (refreshRequirements o m).current_phase = m.current_phase := by
  cases o <;> rfl

@[simp] theorem refreshRequirements_running (o : Option String) (m : Meeting) :
    (refreshRequirements o m).code_generation_running = m.code_generation_running := by
  cases o <;> rfl

@[simp] theorem refreshRequirements_url (o : Option String) (m : Meeting) :
    (refreshRequirements o m).deployment_url = m.deployment_url := by
  cases o <;> rfl

theorem refreshRequirements_transcript (o : Option String) (m : Meeting) :
    (refreshRequirements o m).transcript = m.transcript := by
  cases o <;> rfl

theorem refreshRequirements_none (m : Meeting) :
    refreshRequirements none m = m := rfl

@[simp] theorem tryTriggerCodeGen_pending (m : Meeting) (b : Bool) :
    (tryTriggerCodeGen m b).pending_since_summary = m.pending_since_summary := by
  unfold tryTriggerCodeGen; split <;> rfl

@[simp] theorem tryTriggerCodeGen_summary (m : Meeting) (b : Bool) :
    (tryTriggerCodeGen m b).notebook_summary = m.notebook_summary := by
  unfold tryTriggerCodeGen; split <;> rfl

@[simp] theorem tryTriggerCodeGen_phase (m : Meeting) (b : Bool) :
    (tryTriggerCodeGen m b).current_phase = m.current_phase := by
  unfold tryTriggerCodeGen; split <;> rfl

@[simp] theorem tryTriggerCodeGen_requirements (m : Meeting) (b : Bool) :
    (tryTriggerCodeGen m b).requirements_text = m.requirements_text := by
  unfold tryTriggerCodeGen; split <;> rfl

@[simp] theorem tryTriggerCodeGen_url (m : Meeting) (b : Bool) :
    (tryTriggerCodeGen m b).deployment_url = m.deployment_url := by
  unfold tryTriggerCodeGen; split <;> rfl

theorem tryTriggerCodeGen_transcript (m : Meeting) (b : Bool) :
    (tryTriggerCodeGen m b).transcript = m.transcript := by
  unfold tryTriggerCodeGen; split <;> rfl

/-- A trigger attempt while code generation is running changes no field. -/
theorem tryTriggerCodeGen_noop (m : Meeting) (b : Bool)
    (h : m.code_generation_running = true) : tryTriggerCodeGen m b = m := by
  unfold tryTriggerCodeGen
  rw [if_neg]
  simp [h]

/-! ## Composite lemmas about the cascade and traces -/

theorem completeCodeGen_running (m : Meeting) (r : Option String) :
    (completeCodeGen m r).code_generation_running = false := by
  cases r <;> rfl

theorem completeCodeGen_none_url (m : Meeting) :
    (completeCodeGen m none).deployment_url = m.deployment_url := rfl

theorem completeCodeGen_some_url (m : Meeting) (u : String) :
    (completeCodeGen m (some u)).deployment_url = some u := rfl

/-- The backlog counter after a cascade is the summarizer's decision; the
remaining cascade stages never touch it. -/
theorem cascade_pending (o : Oracles) (iv : Nat) (m : Meeting) :
    (cascade o iv m).pending_since_summary =
      (maybeSummarize o.summarize iv m).pending_since_summary := by
  simp [cascade]

/-- The notebook summary after a cascade is the summarizer's decision; the
remaining cascade stages never touch it. -/
theorem cascade_summary (o : Oracles) (iv : Nat) (m : Meeting) :
    (cascade o iv m).notebook_summary =
      (maybeSummarize o.summarize iv m).notebook_summary := by
  simp [cascade]

/-- No cascade stage ever writes `deployment_url`. -/
@[simp] theorem cascade_url (o : Oracles) (iv : Nat) (m : Meeting) :
    (cascade o iv m).deployment_url = m.deployment_url := by
  simp [cascade]

/-- No cascade stage ever writes the transcript. -/
theorem cascade_transcript (o : Oracles) (iv : Nat) (m : Meeting) :
    (cascade o iv m).transcript = m.transcript := by
  simp [cascade, tryTriggerCodeGen_transcript, refreshRequirements_transcript,
    evalPhase_transcript, maybeSummarize_transcript]

/-- A failed requirements fetch keeps the cached `requirements_text`. -/
theorem cascade_requirements_of_fetch_failed (o : Oracles) (iv : Nat) (m : Meeting)
    (h : o.fetchRequirements = none) :
    (cascade o iv m).requirements_text = m.requirements_text := by
  simp [cascade, h, refreshRequirements_none]

/-- While an invocation is running, the cascade cannot start another one and
leaves the running flag up. -/
theorem cascade_running_of_running (o : Oracles) (iv : Nat) (m : Meeting)
    (h : m.code_generation_running = true) :
    (cascade o iv m).code_generation_running = true := by
  unfold cascade
  have h3 : (refreshRequirements o.fetchRequirements
      (evalPhase o.classify (maybeSummarize o.summarize iv m))).code_generation_running = true := by
    simp [h]
  rw [tryTriggerCodeGen_noop _ _ h3]
  exact h3

/-- The observer's invariant: the in-flight count is 1 exactly while the
running flag is up, 0 otherwise. -/
def flagInv (s : SysState) : Prop :=
  s.inflight = if s.meeting.code_generation_running then 1 else 0

theorem stepEv_flagInv (iv : Nat) (s : SysState) (e : MEvent) (h : flagInv s) :
    flagInv (stepEv iv s e) := by
  cases e with
  | ingestText t now o =>
      unfold flagInv at h ⊢
      simp only [stepEv]
      by_cases hr : s.meeting.code_generation_running
      · have hc : (cascade o iv (appendTranscription s.meeting t now)).code_generation_running
            = true := cascade_running_of_running o iv _ (by simp [hr])
        simp [hc, hr] at h ⊢
        exact h
      · simp only [Bool.not_eq_true] at hr
        simp only [hr, Bool.not_false, Bool.and_true]
        simp only [hr, if_neg Bool.false_ne_true] at h
        by_cases hc :
            (cascade o iv (appendTranscription s.meeting t now)).code_generation_running = true
        · rw [if_pos hc, if_pos hc, h]
        · rw [if_neg hc, if_neg hc, h]
  | genComplete r =>
      unfold flagInv at h ⊢
      simp only [stepEv]
      by_cases hr : s.meeting.code_generation_running
      · simp [hr, completeCodeGen_running] at h ⊢
        omega
      · simp only [Bool.not_eq_true] at hr
        simp [hr] at h ⊢
        exact h

theorem runFrom_flagInv (iv : Nat) (tr : List MEvent) :
    ∀ s : SysState, flagInv s → flagInv (runFrom iv s tr) := by
  induction tr with
  | nil => intro s h; exact h
  | cons e tr ih => intro s h; exact ih _ (stepEv_flagInv iv s e h)

/-- In the initial state nothing is in flight and the flag is down. -/
theorem initState_flagInv : flagInv initState := by
  unfold flagInv initState initialMeeting
  simp

/-- Only a successful completion of a running invocation can change
`deployment_url`, and it sets it to the returned location. -/
theorem stepEv_url_change (iv : Nat) (s : SysState) (e : MEvent)
    (h : (stepEv iv s e).meeting.deployment_url ≠ s.meeting.deployment_url) :
    ∃ v, e = MEvent.genComplete (some v)
      ∧ s.meeting.code_generation_running = true
      ∧ (stepEv iv s e).meeting.deployment_url = some v := by
  cases e with
  | ingestText t now o =>
      exfalso
      apply h
      show (cascade o iv (appendTranscription s.meeting t now)).deployment_url = _
      simp
  | genComplete r =>
      by_cases hr : s.meeting.code_generation_running
      · cases r with
        | none =>
            exfalso
            apply h
            simp only [stepEv]
            rw [if_pos hr]
            exact completeCodeGen_none_url s.meeting
        | some v =>
            refine ⟨v, rfl, hr, ?_⟩
            simp only [stepEv]
            rw [if_pos hr]
            exact completeCodeGen_some_url s.meeting v
      · exfalso
        apply h
        simp only [stepEv]
        rw [if_neg hr]

theorem stepEv_url_of_not_success (iv : Nat) (s : SysState) (e : MEvent)
    (h : ∀ v, e ≠ MEvent.genComplete (some v)) :
    (stepEv iv s e).meeting.deployment_url = s.meeting.deployment_url := by
  by_cases hc : (stepEv iv s e).meeting.deployment_url = s.meeting.deployment_url
  · exact hc
  · obtain ⟨v, hv, -, -⟩ := stepEv_url_change iv s e hc
    exact absurd hv (h v)

theorem runFrom_url_none (iv : Nat) (tr : List MEvent) :
    ∀ s : SysState, s.meeting.deployment_url = none → hasSuccessfulGen tr = false →
      (runFrom iv s tr).meeting.deployment_url = none := by
  induction tr with
  | nil => intro s h _; exact h
  | cons e tr ih =>
      intro s h hs
      simp only [hasSuccessfulGen, List.any_cons, Bool.or_eq_false_iff] at hs
      apply ih
      · rw [stepEv_url_of_not_success iv s e]
        · exact h
        · intro v hv
          subst hv
          simp at hs
      · simpa [hasSuccessfulGen] using hs.2

theorem lookup_update (st : Store) (id : String) (m m2 : Meeting)
    (h : lookupMeeting st id = some m) :
    lookupMeeting (updateMeeting st id m2) id = some m2 := by
  induction st with
  | nil => simp [lookupMeeting] at h
  | cons p rest ih =>
      obtain ⟨k, mm⟩ := p
      by_cases hk : k = id
      · subst hk
        simp [lookupMeeting, updateMeeting]
      · simp only [lookupMeeting, updateMeeting, if_neg hk] at h ⊢
        exact ih h

/-- A closed EventSource dispatches nothing further: once closed, the
connection state is a fixpoint of every event. -/
theorem sseStep_closed (c : SSEConn) (h : c.isClosed = true) (e : SSEEv) :
    sseStep c e = c := by
  cases e with
  | message d => simp [sseStep, h]
  | errorEv =>
      simp only [sseStep]
      cases c
      simp_all

theorem sseRun_closed (evs : List SSEEv) :
    ∀ c : SSEConn, c.isClosed = true → sseRun c evs = c := by
  induction evs with
  | nil => intro c _; rfl
  | cons e evs ih =>
      intro c h
      show sseRun (sseStep c e) evs = c
      rw [sseStep_closed c h e]
      exact ih c h

/-- Below the threshold, iterated ingestions accumulate the backlog counter
and never recompute the summary. -/
theorem iterIngest_below (os : Nat → Oracles) (iv : Nat) (texts : Nat → String)
    (times : Nat → Nat) (m : Meeting) (h0 : m.pending_since_summary = 0) :
    ∀ k, k < iv →
      (iterIngest os iv texts times m k).pending_since_summary = k
      ∧ (iterIngest os iv texts times m k).notebook_summary = m.notebook_summary := by
  intro k
  induction k with
  | zero => intro _; exact ⟨h0, rfl⟩
  | succ k ih =>
      intro hk
      obtain ⟨hp, hs⟩ := ih (by omega)
      have hlt : (appendTranscription (iterIngest os iv texts times m k) (texts k)
          (times k)).pending_since_summary < iv := by
        simp [hp]; omega
      constructor
      · show (cascade (os k) iv _).pending_since_summary = k + 1
        rw [cascade_pending, maybeSummarize_not_triggered _ _ _ hlt]
        simp [hp]
      · show (cascade (os k) iv _).notebook_summary = m.notebook_summary
        rw [cascade_summary, maybeSummarize_not_triggered _ _ _ hlt]
        simp [hs]

/-! ## Claim theorems -/

/-- C1: `ingest(meetingId, text)` fails with `InvalidInput` (HTTP 400) and
changes no state when the text is empty or absent; fails with `NotFound`
(HTTP 404) and mutates nothing when the meeting id is unknown; and
otherwise succeeds, appends exactly one `TranscriptionEntry` carrying the
next sequence number (transcript length grows by exactly one), increments
`pending_since_summary`, and returns an acknowledgment. -/
theorem ingest_contract (st : Store) (id : String) (text : Option String) (now : Nat) :
    statusCode IngestError.invalidInput = 400
    ∧ statusCode IngestError.notFound = 404
    ∧ ((text = none ∨ text = some "") →
        ingest st id text now = (st, Except.error IngestError.invalidInput))
    ∧ (∀ t, text = some t → t ≠ "" → lookupMeeting st id = none →
        ingest st id text now = (st, Except.error IngestError.notFound))
    ∧ (∀ t m, text = some t → t ≠ "" → lookupMeeting st id = some m →
        ingest st id text now =
            (updateMeeting st id (appendTranscription m t now),
             Except.ok { status := "OK", message := "Transcription processed." })
        ∧ lookupMeeting (ingest st id text now).1 id = some (appendTranscription m t now)
        ∧ (appendTranscription m t now).transcript.length = m.transcript.length + 1
        ∧ (appendTranscription m t now).pending_since_summary = m.pending_since_summary + 1
        ∧ (appendTranscription m t now).transcript.getLast? =
            some { seq := nextSeq m, text := t, timestamp := now }) := by
  refine ⟨rfl, rfl, ?_, ?_, ?_⟩
  · rintro (rfl | rfl)
    · rfl
    · simp [ingest]
  · rintro t rfl ht hl
    simp [ingest, ht, hl]
  · rintro t m rfl ht hl
    have hmain : ingest st id (some t) now =
        (updateMeeting st id (appendTranscription m t now),
         Except.ok { status := "OK", message := "Transcription processed." }) := by
      simp [ingest, ht, hl]
    refine ⟨hmain, ?_, by simp, rfl, by simp [appendTranscription]⟩
    rw [hmain]
    exact lookup_update st id m (appendTranscription m t now) hl

/-- C1 witness: the contract evaluated on a concrete one-meeting store for
each of the three cases. -/
theorem ingest_contract_witness :
    ingest [("m1", initialMeeting)] "m1" (some "hello") 0 =
      (updateMeeting [("m1", initialMeeting)] "m1" (appendTranscription initialMeeting "hello" 0),
       Except.ok { status := "OK", message := "Transcription processed." })
    ∧ (appendTranscription initialMeeting "hello" 0).transcript.length
        = initialMeeting.transcript.length + 1
    ∧ (appendTranscription initialMeeting "hello" 0).pending_since_summary
        = initialMeeting.pending_since_summary + 1
    ∧ ingest [("m1", initialMeeting)] "m1" (some "") 0
        = ([("m1", initialMeeting)], Except.error IngestError.invalidInput)
    ∧ ingest [("m1", initialMeeting)] "m2" (some "hello") 0
        = ([("m1", initialMeeting)], Except.error IngestError.notFound)
    ∧ statusCode IngestError.invalidInput = 400
    ∧ statusCode IngestError.notFound = 404 := by
  have h1 := (ingest_contract [("m1", initialMeeting)] "m1" (some "hello") 0).2.2.2.2
    "hello" initialMeeting rfl (by decide) (by decide)
  have h2 := (ingest_contract [("m1", initialMeeting)] "m1" (some "") 0).2.2.1 (Or.inr rfl)
  have h3 := (ingest_contract [("m1", initialMeeting)] "m2" (some "hello") 0).2.2.2.1
    "hello" rfl (by decide) (by decide)
  have h4 := (ingest_contract [("m1", initialMeeting)] "m1" (some "hello") 0).1
  have h5 := (ingest_contract [("m1", initialMeeting)] "m1" (some "hello") 0).2.1
  exact ⟨h1.1, h1.2.2.1, h1.2.2.2.1, h2, h3, h4, h5⟩

/-- C2: starting from a just-summarized meeting (backlog 0), the first
`interval - 1` successful ingestions leave the notebook summary untouched
and accumulate the backlog; the `interval`-th ingestion recomputes the
summary exactly once and resets the backlog to 0 when the text-generation
call succeeds; when that call fails, both the summary and the counter are
left unchanged (the counter keeps the full backlog of `interval`), and the
next ingestion re-attempts over the same accumulated backlog. -/
theorem summarization_threshold (os : Nat → Oracles) (iv : Nat) (texts : Nat → String)
    (times : Nat → Nat) (m : Meeting) (s s2 : String)
    (hiv : 0 < iv) (h0 : m.pending_since_summary = 0) :
    (∀ k, k < iv →
        (iterIngest os iv texts times m k).pending_since_summary = k
        ∧ (iterIngest os iv texts times m k).notebook_summary = m.notebook_summary)
    ∧ ((os (iv - 1)).summarize = some s →
        (iterIngest os iv texts times m iv).notebook_summary = s
        ∧ (iterIngest os iv texts times m iv).pending_since_summary = 0)
    ∧ ((os (iv - 1)).summarize = none →
        (iterIngest os iv texts times m iv).notebook_summary = m.notebook_summary
        ∧ (iterIngest os iv texts times m iv).pending_since_summary = iv
        ∧ ((os iv).summarize = some s2 →
            (iterIngest os iv texts times m (iv + 1)).notebook_summary = s2
            ∧ (iterIngest os iv texts times m (iv + 1)).pending_since_summary = 0)) := by
  obtain ⟨j, rfl⟩ : ∃ j, iv = j + 1 := ⟨iv - 1, by omega⟩
  have hj : j + 1 - 1 = j := by omega
  obtain ⟨hpj, hsj⟩ := iterIngest_below os (j + 1) texts times m h0 j (by omega)
  have hge : (j : Nat) + 1 ≤ (appendTranscription (iterIngest os (j + 1) texts times m j)
      (texts j) (times j)).pending_since_summary := by
    simp [hpj]
  refine ⟨iterIngest_below os (j + 1) texts times m h0, ?_, ?_⟩
  · intro ho
    rw [hj] at ho
    constructor
    · show (cascade (os j) (j + 1) _).notebook_summary = s
      rw [cascade_summary, ho, maybeSummarize_success _ _ _ hge]
    · show (cascade (os j) (j + 1) _).pending_since_summary = 0
      rw [cascade_pending, ho, maybeSummarize_success _ _ _ hge]
  · intro ho
    rw [hj] at ho
    have hsum : (iterIngest os (j + 1) texts times m (j + 1)).notebook_summary
        = m.notebook_summary := by
      show (cascade (os j) (j + 1) _).notebook_summary = m.notebook_summary
      rw [cascade_summary, ho, maybeSummarize_failure]
      simp [hsj]
    have hpend : (iterIngest os (j + 1) texts times m (j + 1)).pending_since_summary
        = j + 1 := by
      show (cascade (os j) (j + 1) _).pending_since_summary = j + 1
      rw [cascade_pending, ho, maybeSummarize_failure]
      simp [hpj]
    refine ⟨hsum, hpend, ?_⟩
    intro ho2
    have hge2 : (j : Nat) + 1 ≤ (appendTranscription
        (iterIngest os (j + 1) texts times m (j + 1)) (texts (j + 1))
        (times (j + 1))).pending_since_summary := by
      simp [hpend]
    constructor
    · show (cascade (os (j + 1)) (j + 1) _).notebook_summary = s2
      rw [cascade_summary, ho2, maybeSummarize_success _ _ _ hge2]
    · show (cascade (os (j + 1)) (j + 1) _).pending_since_summary = 0
      rw [cascade_pending, ho2, maybeSummarize_success _ _ _ hge2]

/-- Oracle outcomes in which every collaborator call succeeds and the
summarizer returns `"S"`. -/
def allOkOracles : Nat → Oracles :=
  fun _ => { summarize := some "S", classify := none, fetchRequirements := none }

/-- Oracle outcomes whose summarizer fails on the fifth ingestion (index 4)
and succeeds with `"S2"` afterwards. -/
def failAt4Oracles : Nat → Oracles :=
  fun k =>
    if k = 4 then { summarize := none, classify := none, fetchRequirements := none }
    else { summarize := some "S2", classify := none, fetchRequirements := none }

/-- C2 witness: with the default interval 5 starting from a fresh meeting,
the backlog is 3 after 3 ingestions with the summary untouched, the 5th
successful summarization writes the summary and resets the backlog; with a
summarizer failure at the 5th ingestion the summary and the backlog of 5
are kept, and the 6th ingestion retries successfully. -/
theorem summarization_threshold_witness :
    (iterIngest allOkOracles 5 (fun _ => "w") (fun k => k) initialMeeting 3).pending_since_summary = 3
    ∧ (iterIngest allOkOracles 5 (fun _ => "w") (fun k => k) initialMeeting 3).notebook_summary
        = initialMeeting.notebook_summary
    ∧ (iterIngest allOkOracles 5 (fun _ => "w") (fun k => k) initialMeeting 5).notebook_summary = "S"
    ∧ (iterIngest allOkOracles 5 (fun _ => "w") (fun k => k) initialMeeting 5).pending_since_summary = 0
    ∧ (iterIngest failAt4Oracles 5 (fun _ => "w") (fun k => k) initialMeeting 5).notebook_summary
        = initialMeeting.notebook_summary
    ∧ (iterIngest failAt4Oracles 5 (fun _ => "w") (fun k => k) initialMeeting 5).pending_since_summary = 5
    ∧ (iterIngest failAt4Oracles 5 (fun _ => "w") (fun k => k) initialMeeting 6).notebook_summary = "S2"
    ∧ (iterIngest failAt4Oracles 5 (fun _ => "w") (fun k => k) initialMeeting 6).pending_since_summary = 0 := by
  have h1 := summarization_threshold allOkOracles 5 (fun _ => "w") (fun k => k)
    initialMeeting "S" "S" (by decide) rfl
  have h2 := summarization_threshold failAt4Oracles 5 (fun _ => "w") (fun k => k)
    initialMeeting "S" "S2" (by decide) rfl
  obtain ⟨ha, hb, -⟩ := h1
  obtain ⟨-, -, hc⟩ := h2
  obtain ⟨hc1, hc2, hc3⟩ := hc (by decide)
  obtain ⟨hb1, hb2⟩ := hb (by decide)
  obtain ⟨ha1, ha2⟩ := ha 3 (by decide)
  obtain ⟨hd1, hd2⟩ := hc3 (by decide)
  exact ⟨ha1, ha2, hb1, hb2, hc1, hc2, hd1, hd2⟩

/-- C3: along every trace of events, the number of code-generation
invocations in flight equals 1 exactly while `code_generation_running` is
true and 0 otherwise — so the flag is up precisely between an invocation's
start and its completion or failure, and at most one invocation is ever in
flight; moreover a trigger attempt on any meeting whose flag is up is a
no-op that changes no field of the meeting record. -/
theorem codeGeneration_mutual_exclusion (iv : Nat) (tr : List MEvent) (m : Meeting) (b : Bool) :
    (runTrace iv tr).inflight =
        (if (runTrace iv tr).meeting.code_generation_running then 1 else 0)
    ∧ (runTrace iv tr).inflight ≤ 1
    ∧ (m.code_generation_running = true → tryTriggerCodeGen m b = m) := by
  have h : flagInv (runTrace iv tr) := runFrom_flagInv iv tr initState initState_flagInv
  refine ⟨h, ?_, fun hr => tryTriggerCodeGen_noop m b hr⟩
  rw [show (runTrace iv tr).inflight =
      (if (runTrace iv tr).meeting.code_generation_running then 1 else 0) from h]
  split <;> omega

/-- Cascade outcomes that advance the phase to Implementation with fresh
requirements, so that the code-generation trigger fires. -/
def advanceOracles : Oracles :=
  { summarize := none, classify := some Phase.implementation, fetchRequirements := some "reqs" }

/-- A trace whose single ingestion launches code generation. -/
def launchTrace : List MEvent := [MEvent.ingestText "hello" 0 advanceOracles]

/-- A meeting whose code-generation flag is up. -/
def runningMeeting : Meeting := { initialMeeting with code_generation_running := true }

/-- C3 witness: on a concrete trace that launches an invocation, exactly one
invocation is in flight while the flag is up, and a trigger attempt on a
concrete running meeting changes nothing. -/
theorem codeGeneration_mutual_exclusion_witness :
    (runTrace 5 launchTrace).inflight =
        (if (runTrace 5 launchTrace).meeting.code_generation_running then 1 else 0)
    ∧ (runTrace 5 launchTrace).inflight ≤ 1
    ∧ tryTriggerCodeGen runningMeeting true = runningMeeting
    ∧ (runTrace 5 launchTrace).meeting.code_generation_running = true
    ∧ (runTrace 5 launchTrace).inflight = 1 := by
  have h := codeGeneration_mutual_exclusion 5 launchTrace runningMeeting true
  refine ⟨h.1, h.2.1, h.2.2 rfl, by decide, by decide⟩

/-- C4: `deployment_url` stays absent along every trace without a
successful code-generation completion; a successful completion sets it to
the returned location; a failed completion leaves it exactly at its
previous value; and no event other than a successful completion of a
running invocation can change it at all. -/
theorem deployment_url_lifecycle (iv : Nat) (tr : List MEvent) (s : SysState)
    (m : Meeting) (u : String) :
    (hasSuccessfulGen tr = false → (runTrace iv tr).meeting.deployment_url = none)
    ∧ (completeCodeGen m none).deployment_url = m.deployment_url
    ∧ (completeCodeGen m (some u)).deployment_url = some u
    ∧ (∀ e, (stepEv iv s e).meeting.deployment_url ≠ s.meeting.deployment_url →
        ∃ v, e = MEvent.genComplete (some v)
          ∧ s.meeting.code_generation_running = true
          ∧ (stepEv iv s e).meeting.deployment_url = some v) := by
  refine ⟨?_, completeCodeGen_none_url m, completeCodeGen_some_url m u,
    fun e he => stepEv_url_change iv s e he⟩
  intro hs
  exact runFrom_url_none iv tr initState rfl hs

/-- A trace that launches code generation and then fails the invocation. -/
def launchFailTrace : List MEvent :=
  [MEvent.ingestText "hello" 0 advanceOracles, MEvent.genComplete none]

/-- C4 witness: on a concrete trace whose only invocation fails,
`deployment_url` is still absent afterwards, and completion at a concrete
meeting keeps the url on failure and sets it on success. -/
theorem deployment_url_lifecycle_witness :
    (runTrace 5 launchFailTrace).meeting.deployment_url = none
    ∧ (completeCodeGen runningMeeting none).deployment_url = runningMeeting.deployment_url
    ∧ (completeCodeGen runningMeeting (some "http://d")).deployment_url = some "http://d" := by
  have h := deployment_url_lifecycle 5 launchFailTrace initState runningMeeting "http://d"
  exact ⟨h.1 (by decide), h.2.1, h.2.2.1⟩

/-- C5: for a known meeting id and non-empty text, the full ingestion
handler returns success whatever the collaborator outcomes are (any
combination of text-generation, requirements and classifier failures);
when the requirements fetch fails, the stored `requirements_text` stays at
its last cached value; and the only error results the handler can ever
produce are `InvalidInput` on empty/absent text and `NotFound` on an
unknown meeting id. -/
theorem ingest_failure_isolation (o : Oracles) (iv : Nat) (st : Store) (id : String)
    (text : Option String) (now : Nat) :
    (∀ t m, text = some t → t ≠ "" → lookupMeeting st id = some m →
        (handleIngest o iv st id text now).2 =
            Except.ok { status := "OK", message := "Transcription processed." }
        ∧ lookupMeeting (handleIngest o iv st id text now).1 id =
            some (cascade o iv (appendTranscription m t now))
        ∧ (o.fetchRequirements = none →
            (cascade o iv (appendTranscription m t now)).requirements_text =
              m.requirements_text))
    ∧ (∀ e, (handleIngest o iv st id text now).2 = Except.error e →
        (e = IngestError.invalidInput ∧ (text = none ∨ text = some ""))
        ∨ (e = IngestError.notFound ∧ lookupMeeting st id = none)) := by
  constructor
  · rintro t m rfl ht hl
    have hmain : handleIngest o iv st id (some t) now =
        (updateMeeting st id (cascade o iv (appendTranscription m t now)),
         Except.ok { status := "OK", message := "Transcription processed." }) := by
      simp [handleIngest, ht, hl]
    refine ⟨by rw [hmain], ?_, ?_⟩
    · rw [hmain]
      exact lookup_update st id m _ hl
    · intro hf
      rw [cascade_requirements_of_fetch_failed o iv _ hf]
      simp
  · intro e he
    match htext : text with
    | none =>
        simp [handleIngest, htext] at he
        exact Or.inl ⟨he.symm, Or.inl rfl⟩
    | some t =>
        by_cases ht : t = ""
        · subst ht
          simp [handleIngest] at he
          exact Or.inl ⟨he.symm, Or.inr rfl⟩
        · match hl : lookupMeeting st id with
          | none =>
              simp [handleIngest, ht, hl] at he
              exact Or.inr ⟨he.symm, rfl⟩
          | some m =>
              simp [handleIngest, ht, hl] at he

/-- Collaborator outcomes in which every outbound call fails. -/
def allFailOracles : Oracles :=
  { summarize := none, classify := none, fetchRequirements := none }

/-- C5 witness: with every collaborator call failing, ingesting into a
concrete store still returns the success acknowledgment and leaves the
cached `requirements_text` unchanged. -/
theorem ingest_failure_isolation_witness :
    (handleIngest allFailOracles 5 [("m1", initialMeeting)] "m1" (some "hello") 0).2 =
        Except.ok { status := "OK", message := "Transcription processed." }
    ∧ (cascade allFailOracles 5 (appendTranscription initialMeeting "hello" 0)).requirements_text =
        initialMeeting.requirements_text := by
  have h := (ingest_failure_isolation allFailOracles 5 [("m1", initialMeeting)] "m1"
    (some "hello") 0).1 "hello" initialMeeting rfl (by decide) (by decide)
  exact ⟨h.1, h.2.2 rfl⟩

/-- C6 counterexample: the claim that the phase names broadcast by the
manager service are the same six names the dashboard's state display
recognizes is false — the two lists disagree at the third and sixth
entries ("Design (Tech & UI/UX)" vs "Design (tech & UIUX)" and
"Deployment and Maintenance" vs "Deployment, and Maintenance"). -/
theorem state_names_mismatch :
    STATES ≠ managerStates
    ∧ managerStates[2]? = some "Design (Tech & UI/UX)"
    ∧ STATES[2]? = some "Design (tech & UIUX)"
    ∧ managerStates[5]? = some "Deployment and Maintenance"
    ∧ STATES[5]? = some "Deployment, and Maintenance" := by
  decide

/-- C6 amended: in every reachable state, `current_phase` is one of exactly
six fixed named phases in the documented fixed order, the initial phase is
the first of them, and the dashboard's list also has six entries agreeing
with the service's names in the first, second, fourth and fifth positions —
but the third and sixth names differ in spelling between the service and
the dashboard, so the broadcast names are not all names the dashboard's
state display recognizes. -/
theorem phase_universe (iv : Nat) (tr : List MEvent) (p : Phase) :
    managerStates.length = 6
    ∧ STATES.length = 6
    ∧ managerStates = allPhases.map phaseName
    ∧ phaseName initialMeeting.current_phase = "Conceptualization"
    ∧ managerStates[0]? = some (phaseName initialMeeting.current_phase)
    ∧ STATES[0]? = some (phaseName initialMeeting.current_phase)
    ∧ phaseName p ∈ managerStates
    ∧ phaseName (runTrace iv tr).meeting.current_phase ∈ managerStates
    ∧ STATES[1]? = managerStates[1]?
    ∧ STATES[3]? = managerStates[3]?
    ∧ STATES[4]? = managerStates[4]?
    ∧ STATES[2]? ≠ managerStates[2]?
    ∧ STATES[5]? ≠ managerStates[5]? := by
  have hall : ∀ q : Phase, phaseName q ∈ managerStates := by
    intro q
    cases q <;> decide
  exact ⟨by decide, by decide, rfl, rfl, by decide, by decide, hall p,
    hall (runTrace iv tr).meeting.current_phase, by decide, by decide, by decide,
    by decide, by decide⟩

/-- C7: a subscriber connecting mid-session is registered and receives a
snapshot at the connect event itself — the head of its delivery stream,
before anything emitted for the subsequent events (ticks included) — and
that snapshot is the full, internally consistent copy of every
broadcast-relevant field of the meeting state at connect time. -/
theorem subscriber_snapshot_on_connect (subs : List Nat) (mt : Nat → Meeting) (s : Nat)
    (evs : List BEvent) :
    (∃ rest, deliveriesTo s (broadcastRun subs mt 0 (BEvent.connect s :: evs)) =
        snapshotOf (mt 0) :: rest)
    ∧ (snapshotOf (mt 0)).transcriptions = (mt 0).transcript.map (fun e => e.text)
    ∧ (snapshotOf (mt 0)).notebook_summary = (mt 0).notebook_summary
    ∧ (snapshotOf (mt 0)).current_state = phaseName (mt 0).current_phase
    ∧ (snapshotOf (mt 0)).code_generation_running = (mt 0).code_generation_running
    ∧ (snapshotOf (mt 0)).requirements = (mt 0).requirements_text
    ∧ (snapshotOf (mt 0)).deployment_url = (mt 0).deployment_url := by
  refine ⟨⟨deliveriesTo s (broadcastRun (s :: subs) mt 1 evs), ?_⟩, rfl, rfl, rfl, rfl, rfl, rfl⟩
  simp [broadcastRun, broadcastStep, deliveriesTo]

/-- C8: on an error event the SSE subscription closes the EventSource and
never opens a new connection: every subsequent event list leaves the
connection state exactly as it was right after the error, so no further
data (snapshots or heartbeat ticks) ever reaches `setData` until the page
is reloaded. -/
theorem sse_error_closes_forever (c : SSEConn) (evs : List SSEEv) :
    (sseStep c SSEEv.errorEv).isClosed = true
    ∧ sseRun (sseStep c SSEEv.errorEv) evs = sseStep c SSEEv.errorEv
    ∧ (sseRun (sseStep c SSEEv.errorEv) evs).lastData = c.lastData := by
  refine ⟨rfl, sseRun_closed evs _ rfl, ?_⟩
  rw [sseRun_closed evs _ rfl]
  rfl

/-- C9: the dashboard never renders the deployment iframe while
`code_generation_running` is true (a spinner is shown instead), and when
`deployment_url` is absent or empty no iframe is rendered at all. -/
theorem dashboard_iframe_gating (d : ProjectData) (u : String) :
    (d.code_generation_running = true → renderWrapper (some d) = MainView.spinnerView)
    ∧ (d.code_generation_running = false →
        (d.deployment_url = none ∨ d.deployment_url = some "") →
        renderWrapper (some d) = MainView.noIframe)
    ∧ (renderWrapper (some d) = MainView.iframeView u →
        d.code_generation_running = false ∧ d.deployment_url = some u ∧ u ≠ "") := by
  refine ⟨?_, ?_, ?_⟩
  · intro hr
    simp [renderWrapper, hr]
  · rintro hr (hu | hu) <;> simp [renderWrapper, renderIframeSection, hr, hu]
  · intro hv
    by_cases hr : d.code_generation_running
    · simp [renderWrapper, hr] at hv
    · simp only [Bool.not_eq_true] at hr
      refine ⟨hr, ?_⟩
      simp only [renderWrapper, hr, Bool.false_eq_true, if_false] at hv
      match hu : d.deployment_url with
      | none => rw [hu] at hv; simp [renderIframeSection] at hv
      | some v =>
          rw [hu] at hv
          by_cases hv0 : v = ""
          · subst hv0; simp [renderIframeSection] at hv
          · simp only [renderIframeSection] at hv
            rw [if_neg (by simp [hv0])] at hv
            cases hv
            exact ⟨rfl, hv0⟩

/-- A snapshot rendered while code generation runs. -/
def runningData : ProjectData :=
  { notebook_summary := "sum"
    requirements := ReqValue.nullReq
    current_state := "Implementation"
    deployment_url := some "http://d"
    code_generation_running := true }

/-- A snapshot with no deployment url and no generation running. -/
def idleData : ProjectData :=
  { notebook_summary := "sum"
    requirements := ReqValue.nullReq
    current_state := "Testing"
    deployment_url := none
    code_generation_running := false }

/-- C9 witness: the spinner is shown for a concrete running snapshot even
though a deployment url exists, and no iframe is rendered for a concrete
idle snapshot without a url. -/
theorem dashboard_iframe_gating_witness :
    renderWrapper (some runningData) = MainView.spinnerView
    ∧ renderWrapper (some idleData) = MainView.noIframe := by
  have h1 := (dashboard_iframe_gating runningData "u").1 rfl
  have h2 := (dashboard_iframe_gating idleData "u").2.1 rfl (Or.inl rfl)
  exact ⟨h1, h2⟩

/-- C10 counterexample: the claim that every non-null string without a
newline is rendered as the one-element list containing that string is
false at the empty string — `""` is non-null and contains no newline, but
`if (!requirements) return null` treats the falsy empty string as absent
and renders nothing instead of `[""]`. -/
theorem requirements_empty_string_render :
    jsHasNewline "" = false
    ∧ renderRequirements (ReqValue.strReq "") = none
    ∧ renderRequirements (ReqValue.strReq "") ≠ some [""] := by
  decide

/-- C10 amended: for every non-null requirements value, a NON-EMPTY string
containing a newline is rendered as the list of its lines with all blank
(whitespace-only) lines removed; a non-empty string without a newline is
rendered as the one-element list containing it; an array is rendered
unchanged; and the empty string — being falsy — is treated like null and
renders nothing. -/
theorem requirements_normalization (s : String) (xs : List String) :
    (s ≠ "" → jsHasNewline s = true →
        renderRequirements (ReqValue.strReq s) = some (nonBlankLines s))
    ∧ (s ≠ "" → jsHasNewline s = false →
        renderRequirements (ReqValue.strReq s) = some [s])
    ∧ renderRequirements (ReqValue.arrReq xs) = some xs
    ∧ renderRequirements (ReqValue.strReq "") = none
    ∧ renderRequirements ReqValue.nullReq = none := by
  refine ⟨?_, ?_, rfl, by decide, rfl⟩
  · intro hs hn
    simp [renderRequirements, nonBlankLines, hs, hn]
  · intro hs hn
    simp [renderRequirements, hs, hn]

/-- C10 witness: the amended normalization evaluated at a concrete
multi-line string with a blank middle line, a concrete plain string and a
concrete array. -/
theorem requirements_normalization_witness :
    renderRequirements (ReqValue.strReq "a\n \nb") = some (nonBlankLines "a\n \nb")
    ∧ nonBlankLines "a\n \nb" = ["a", "b"]
    ∧ renderRequirements (ReqValue.strReq "x") = some ["x"]
    ∧ renderRequirements (ReqValue.arrReq ["p", "q"]) = some ["p", "q"] := by
  have h1 := (requirements_normalization "a\n \nb" ["p", "q"]).1 (by decide) (by decide)
  have h2 := (requirements_normalization "x" ["p", "q"]).2.1 (by decide) (by decide)
  have h3 := (requirements_normalization "x" ["p", "q"]).2.2.1
  exact ⟨h1, by decide, h2, h3⟩
